import Mathlib

/-!
Verification of the wazero core-engine specification against the sources.

The repository excerpt contains the public `api` package (value encoders,
`Memory`/`Function` interfaces), the engine-conformance test suite
(`enginetest`), and the host-module-builder tests.  The engine itself
(interpreter/compiler, call engine, module engine, namespace registry,
host module builder) is not part of the excerpt, so those operations are
modelled from the specification, while the module/function data fed to
them is translated from the test sources.  The `api` encoders are
translated directly from `src/api/wasm.go`.
-/

namespace Wazero

/-- Decidable equality for `Except`, used to evaluate the engine model on
concrete inputs. -/
instance {ε α : Type} [DecidableEq ε] [DecidableEq α] : DecidableEq (Except ε α) := fun a b =>
  match a, b with
  | .ok x, .ok y =>
    if h : x = y then .isTrue (by rw [h]) else .isFalse (fun he => by cases he; exact h rfl)
  | .error x, .error y =>
    if h : x = y then .isTrue (by rw [h]) else .isFalse (fun he => by cases he; exact h rfl)
  | .ok _, .error _ => .isFalse (fun he => by cases he)
  | .error _, .ok _ => .isFalse (fun he => by cases he)

/-- Value type bytes, translated from `src/api/wasm.go` (`ValueTypeI32` …
`ValueTypeExternref`). -/
def ValueTypeI32 : Nat := 0x7f

/-- Value type byte for i64, from `src/api/wasm.go`. -/
def ValueTypeI64 : Nat := 0x7e

/-- Value type byte for f32, from `src/api/wasm.go`. -/
def ValueTypeF32 : Nat := 0x7d

/-- Value type byte for f64, from `src/api/wasm.go`. -/
def ValueTypeF64 : Nat := 0x7c

/-- Value type byte for externref, from `src/api/wasm.go`. -/
def ValueTypeExternref : Nat := 0x6f

/-- Value type byte for funcref, from the internal wasm package
(0x70 per the WebAssembly binary format; referenced by the enginetest
sources as `wasm.ValueTypeFuncref`). -/
def ValueTypeFuncref : Nat := 0x70

/-- Translated from `ValueTypeName` in `src/api/wasm.go`: the text-format
name of a value type. -/
def ValueTypeName (t : Nat) : String :=
  if t = ValueTypeI32 then "i32"
  else if t = ValueTypeI64 then "i64"
  else if t = ValueTypeF32 then "f32"
  else if t = ValueTypeF64 then "f64"
  else if t = ValueTypeExternref then "externref"
  else "unknown"

/-- Translated from `EncodeI32` in `src/api/wasm.go`:
`uint64(uint32(input))`.  An `int32` is modelled as an `Int` in
`[-2^31, 2^31)`; the Go conversion `int32 → uint32` reinterprets the two's
complement bits, i.e. takes the value modulo `2^32`, and `uint32 → uint64`
zero-extends. -/
def EncodeI32 (input : Int) : Nat := (input % 4294967296).toNat

/-- Translated from `EncodeI64` in `src/api/wasm.go`: `uint64(input)`,
the two's-complement bits of the `int64`. -/
def EncodeI64 (input : Int) : Nat := (input % 18446744073709551616).toNat

/-- Translated from `EncodeF32` in `src/api/wasm.go`:
`uint64(math.Float32bits(input))`.  A `float32` is modelled by its IEEE 754
bit pattern (a `Nat < 2^32`); `math.Float32bits` is the bit identity, and
the `uint32 → uint64` conversion zero-extends. -/
def EncodeF32 (inputBits : Nat) : Nat := inputBits

/-- Translated from `DecodeF32` in `src/api/wasm.go`:
`math.Float32frombits(uint32(input))`.  The `uint64 → uint32` conversion
truncates to the low 32 bits, and `Float32frombits` is the bit identity. -/
def DecodeF32 (input : Nat) : Nat := input % 4294967296

/-- Translated from `EncodeF64` in `src/api/wasm.go`:
`math.Float64bits(input)`, the bit identity on the 64-bit pattern. -/
def EncodeF64 (inputBits : Nat) : Nat := inputBits

/-- Translated from `DecodeF64` in `src/api/wasm.go`:
`math.Float64frombits(input)`, the bit identity modulo the 64-bit width. -/
def DecodeF64 (input : Nat) : Nat := input % 18446744073709551616

/-- Translated from `EncodeExternref` in `src/api/wasm.go`:
`uint64(input)` where `input : uintptr` is a 64-bit machine word. -/
def EncodeExternref (input : Nat) : Nat := input % 18446744073709551616

/-- Translated from `DecodeExternref` in `src/api/wasm.go`:
`uintptr(input)`, truncation to the 64-bit pointer width. -/
def DecodeExternref (input : Nat) : Nat := input % 18446744073709551616

/-- Modelled from the spec: the trap taxonomy of §7 restricted to the kinds
exercised by the claims (the engine that raises them is not in the source
excerpt). -/
inductive Trap where
  | wasmDivByZero
  | hostPanicErr (msg : String)
  | hostRuntimeError (msg : String)
  | stackExhausted
  | stackUnderflow
  | invalidFunction
deriving DecidableEq

/-- Modelled from the spec: one stack-trace frame, `<module>.<debug-name>`
with the signature types (§4.3 trap rendering; the renderer itself is not
in the source excerpt). -/
structure Frame where
  moduleName : String
  debugName : String
  paramTypes : List Nat
  resultTypes : List Nat
deriving DecidableEq

/-- Modelled from the spec (§4.1 step 3): the decoded-operator form of a
function body, restricted to the operators appearing in the enginetest
module sources. -/
inductive Op where
  | localGet (i : Nat)
  | i32Const (v : Nat)
  | i32DivU
  | callIdx (k : Nat)
deriving DecidableEq

/-- The host functions defined in `src/unnamed/part_001` (`divByGo`). -/
inductive HostFn where
  | divByGo
deriving DecidableEq

/-- A function body: decoded Wasm operators or a host-function descriptor
(§3 Module IR `funcs[]`). -/
inductive FuncBody where
  | wasm (ops : List Op)
  | host (h : HostFn)
deriving DecidableEq

/-- Modelled from the spec: a compiled function handle as the engine sees
it — module/debug names for traces, the signature, its slot arity, and the
module-local function index space (`modFuncs` maps a `call` operand to the
store-wide index, imports first then locals, §3). -/
structure FuncInst where
  moduleName : String
  debugName : String
  paramTypes : List Nat
  resultTypes : List Nat
  paramNumInUint64 : Nat
  resultNumInUint64 : Nat
  modFuncs : List Nat
  body : FuncBody
deriving DecidableEq

/-- The trace frame of a function, per §4.3. -/
def frameOf (f : FuncInst) : Frame :=
  ⟨f.moduleName, f.debugName, f.paramTypes, f.resultTypes⟩

/-- Translated from `divByGo` in `src/unnamed/part_001` combined with the
panic-to-trap mapping that is modelled from the spec (§4.4): the host
function panics with `host-function panic` on `0xFFFFFFFF`, hits the Go
runtime divide-by-zero fault on `0`, and otherwise returns `1/d`. -/
def runHost : HostFn → List Nat → Except (Trap × List Frame) (List Nat)
  | .divByGo, args =>
    let d := args.getD 0 0 % 4294967296
    if d = 4294967295 then .error (.hostPanicErr "host-function panic", [])
    else if d = 0 then .error (.hostRuntimeError "integer divide by zero", [])
    else .ok [1 / d]

/-- A pending unit of engine work: invoke a function by store index, or
execute decoded operators within a frame. -/
inductive Task where
  | callFn (gidx : Nat) (args : List Nat)
  | exec (f : FuncInst) (locals : List Nat) (ops : List Op) (stack : List Nat)

/-- Modelled from the spec (§4.1-§4.4): the engine execution loop.  A
`callFn` runs the body and, on success, copies the top result slots out in
order; on a trap it appends its own frame to the unwinding trace, so the
innermost frame comes first (host frames innermost, §4.4).  `exec` walks
the decoded operators over the 64-bit slot stack.  Fuel bounds the
recursion; exhaustion maps to the `call_stack_exhausted` trap kind. -/
def runTask (store : List FuncInst) : Nat → Task → Except (Trap × List Frame) (List Nat)
  | 0, _ => .error (.stackExhausted, [])
  | fuel + 1, .callFn gidx args =>
    match store[gidx]? with
    | none => .error (.invalidFunction, [])
    | some f =>
      let r :=
        match f.body with
        | .host h => runHost h args
        | .wasm ops =>
          match runTask store fuel (.exec f args ops []) with
          | .ok stack => .ok ((stack.take f.resultNumInUint64).reverse)
          | .error e => .error e
      match r with
      | .ok res => .ok res
      | .error (t, frames) => .error (t, frames ++ [frameOf f])
  | fuel + 1, .exec f locals ops stack =>
    match ops with
    | [] => .ok stack
    | op :: rest =>
      match op with
      | .localGet i => runTask store fuel (.exec f locals rest (locals.getD i 0 :: stack))
      | .i32Const v => runTask store fuel (.exec f locals rest (v :: stack))
      | .i32DivU =>
        match stack with
        | d :: n :: tl =>
          if d % 4294967296 = 0 then .error (.wasmDivByZero, [])
          else runTask store fuel (.exec f locals rest ((n % 4294967296) / (d % 4294967296) :: tl))
        | _ => .error (.stackUnderflow, [])
      | .callIdx k =>
        match f.modFuncs[k]? with
        | none => .error (.invalidFunction, [])
        | some g =>
          match store[g]? with
          | none => .error (.invalidFunction, [])
          | some callee =>
            let np := callee.paramNumInUint64
            if stack.length < np then .error (.stackUnderflow, [])
            else
              match runTask store fuel (.callFn g ((stack.take np).reverse)) with
              | .ok res => runTask store fuel (.exec f locals rest (res.reverse ++ stack.drop np))
              | .error e => .error e

/-- Modelled from the spec (§4.3/§7): the human phrase opening a trap
error message, matching the messages quoted in the test sources. -/
def trapPhrase : Trap → String
  | .wasmDivByZero => "wasm error: integer divide by zero"
  | .hostPanicErr m => m ++ " (recovered by wazero)"
  | .hostRuntimeError m => "runtime error: " ++ m ++ " (recovered by wazero)"
  | .stackExhausted => "wasm error: stack overflow"
  | .stackUnderflow => "wasm error: stack underflow"
  | .invalidFunction => "wasm error: invalid function"

/-- Modelled from the spec (§4.3): a trace line
`<module>.<debug-name>(<param-types>) <result-types>`. -/
def signatureOf (fr : Frame) : String :=
  fr.moduleName ++ "." ++ fr.debugName ++ "(" ++
    String.intercalate "," (fr.paramTypes.map ValueTypeName) ++ ")" ++
    (match fr.resultTypes with
     | [] => ""
     | _ => " " ++ String.intercalate "," (fr.resultTypes.map ValueTypeName))

/-- Modelled from the spec (§4.3): full trap error text — the kind phrase
followed by the stack trace, innermost frame first. -/
def renderTrapError (t : Trap) (frames : List Frame) : String :=
  trapPhrase t ++ "\nwasm stack trace:" ++
    String.join (frames.map (fun fr => "\n\t" ++ signatureOf fr))

/-- The execution fuel used for the concrete scenarios; all of them finish
well within it. -/
def callFuel : Nat := 100

/-- Modelled from the spec (§4.3 `call`): the Call Engine entry point.
Checks that `len(params)` equals the parameter count in 64-bit slots and
fails with `expected N params, but passed M` on mismatch; otherwise runs
the function and returns the freshly copied results, rendering any trap as
an error message. -/
def callEngineCall (store : List FuncInst) (gidx : Nat) (params : List Nat) :
    Except String (List Nat) :=
  match store[gidx]? with
  | none => .error "invalid function index"
  | some f =>
    if params.length ≠ f.paramNumInUint64 then
      .error ("expected " ++ Nat.repr f.paramNumInUint64 ++ " params, but passed " ++
        Nat.repr params.length)
    else
      match runTask store callFuel (.callFn gidx params) with
      | .ok res => .ok res
      | .error (t, frames) => .error (renderTrapError t frames)

/-- Translated from `setupCallTests` in `src/unnamed/part_001`: the host
module `host` exports `div_by.go` implemented by `divByGo`, type
`(i32) → i32`. -/
def divByGoFn : FuncInst :=
  { moduleName := "host", debugName := "div_by.go",
    paramTypes := [ValueTypeI32], resultTypes := [ValueTypeI32],
    paramNumInUint64 := 1, resultNumInUint64 := 1,
    modFuncs := [0], body := .host .divByGo }

/-- Translated from `setupCallTests` in `src/unnamed/part_001`: the
`imported` module function `div_by.wasm`, body
`i32.const 1, local.get 0, i32.div_u`. -/
def divByWasmFn : FuncInst :=
  { moduleName := "imported", debugName := "div_by.wasm",
    paramTypes := [ValueTypeI32], resultTypes := [ValueTypeI32],
    paramNumInUint64 := 1, resultNumInUint64 := 1,
    modFuncs := [0, 1, 2],
    body := .wasm [.i32Const 1, .localGet 0, .i32DivU] }

/-- Translated from `setupCallTests` in `src/unnamed/part_001`: the
`imported` module function `call->div_by.go`, body
`local.get 0, call 0` where module-local index 0 is the imported host
function. -/
def callDivByGoFn : FuncInst :=
  { moduleName := "imported", debugName := "call->div_by.go",
    paramTypes := [ValueTypeI32], resultTypes := [ValueTypeI32],
    paramNumInUint64 := 1, resultNumInUint64 := 1,
    modFuncs := [0, 1, 2],
    body := .wasm [.localGet 0, .callIdx 0] }

/-- Translated from `setupCallTests` in `src/unnamed/part_001`: the
`importing` module function `call_import->call->div_by.go`, body
`local.get 0, call 0` where module-local index 0 is the imported
`call->div_by.go`. -/
def callImportCallDivByGoFn : FuncInst :=
  { moduleName := "importing", debugName := "call_import->call->div_by.go",
    paramTypes := [ValueTypeI32], resultTypes := [ValueTypeI32],
    paramNumInUint64 := 1, resultNumInUint64 := 1,
    modFuncs := [2, 3],
    body := .wasm [.localGet 0, .callIdx 0] }

/-- The store built by `setupCallTests`: host function, then the two
`imported` functions, then the `importing` function. -/
def callStore : List FuncInst :=
  [divByGoFn, divByWasmFn, callDivByGoFn, callImportCallDivByGoFn]

/-- Translated from `RunTestModuleEngine_Call` in `src/unnamed/part_001`:
the identity function `(param i64 i64) (result i64 i64)` with body
`local.get 0, local.get 1`, both slot counts 2. -/
def identityFn : FuncInst :=
  { moduleName := "test", debugName := "identity",
    paramTypes := [ValueTypeI64, ValueTypeI64],
    resultTypes := [ValueTypeI64, ValueTypeI64],
    paramNumInUint64 := 2, resultNumInUint64 := 2,
    modFuncs := [0], body := .wasm [.localGet 0, .localGet 1] }

/-- The single-function store of `RunTestModuleEngine_Call`. -/
def identityStore : List FuncInst := [identityFn]

/-- Modelled from the spec: a heap of byte buffers.  Go slice aliasing is
made explicit — a buffer is named by its index in `bufs`, and two slices
share storage exactly when they name the same buffer. -/
structure BufHeap where
  bufs : List (List Nat)
deriving DecidableEq

/-- Allocate a fresh buffer and return its name. -/
def allocBuf (h : BufHeap) (contents : List Nat) : Nat × BufHeap :=
  (h.bufs.length, ⟨h.bufs ++ [contents]⟩)

/-- Read one cell of a named buffer (0 when out of range, matching Go's
zero value for the modelling of reads the claims never exercise). -/
def bufGet (h : BufHeap) (bid i : Nat) : Nat :=
  (h.bufs.getD bid []).getD i 0

/-- Write one cell of a named buffer in place. -/
def bufSet (h : BufHeap) (bid i v : Nat) : BufHeap :=
  ⟨h.bufs.set bid ((h.bufs.getD bid []).set i v)⟩

/-- Modelled from the spec (§4.3): `call` copies the result slots into a
freshly allocated output slice; the allocation is made explicit through
the buffer heap so distinct-storage claims can be stated. -/
def callEngineCallAlloc (store : List FuncInst) (h : BufHeap) (gidx : Nat)
    (params : List Nat) : Except String (Nat × BufHeap) :=
  match callEngineCall store gidx params with
  | .error e => .error e
  | .ok res => .ok (allocBuf h res)

/-- Modelled from the spec (§3/§4.5): one linear memory — the name of its
backing buffer in the heap, its current size, the capacity of its backing
buffer, and its page maximum.  The engine's memory instance is not in the
source excerpt. -/
structure MemInst where
  bufId : Nat
  sizeBytes : Nat
  capBytes : Nat
  maxPages : Nat
deriving DecidableEq

/-- Modelled from the spec (§4.5): a host-side view returned by
`Memory.Read` — a re-slice of a named buffer, not a copy. -/
structure HostView where
  bufId : Nat
  off : Nat
  len : Nat
deriving DecidableEq

/-- Well-formedness of a memory against a heap: its buffer exists and has
exactly `sizeBytes` cells. -/
def memWF (h : BufHeap) (m : MemInst) : Prop :=
  m.bufId < h.bufs.length ∧ (h.bufs.getD m.bufId []).length = m.sizeBytes

instance (h : BufHeap) (m : MemInst) : Decidable (memWF h m) := by
  unfold memWF
  infer_instance

/-- Modelled from the spec (`Memory.Read`, doc in `src/api/wasm.go`
lines 477-508): bounds-check `offset + byteCount` against the current
size and return a view of the backing buffer — the same buffer name, not
a copy. -/
def memRead (_h : BufHeap) (m : MemInst) (offset byteCount : Nat) : Option HostView :=
  if offset + byteCount ≤ m.sizeBytes then some ⟨m.bufId, offset, byteCount⟩ else none

/-- A byte observed through a host view. -/
def viewByte (h : BufHeap) (v : HostView) (i : Nat) : Nat :=
  bufGet h v.bufId (v.off + i)

/-- A host write through a view (in range of the view). -/
def viewWrite (h : BufHeap) (v : HostView) (i val : Nat) : BufHeap :=
  if i < v.len then bufSet h v.bufId (v.off + i) val else h

/-- A byte of the memory as Wasm loads observe it. -/
def memByte (h : BufHeap) (m : MemInst) (i : Nat) : Nat :=
  bufGet h m.bufId i

/-- A Wasm store of one byte (bounds-checked, §4.5). -/
def memWriteByte (h : BufHeap) (m : MemInst) (i val : Nat) : BufHeap :=
  if i < m.sizeBytes then bufSet h m.bufId i val else h

/-- A sequence of Wasm byte stores starting at `off` — the shape of the
`memory.init` instruction used by `RunTestModuleEngine_Memory`. -/
def memWriteBytes (h : BufHeap) (m : MemInst) (off : Nat) : List Nat → BufHeap
  | [] => h
  | b :: rest => memWriteBytes (memWriteByte h m off b) m (off + 1) rest

/-- Modelled from the spec (§4.5, `Memory.Grow` doc in `src/api/wasm.go`):
grow by `delta` pages.  Past the page maximum the delta is ignored and
`false` returned.  Within the backing buffer's capacity the same buffer is
extended in place (host views stay connected); past the capacity a new
buffer is allocated and the contents copied, leaving outstanding host
views on the old buffer (stale but valid for their original length). -/
def memGrow (h : BufHeap) (m : MemInst) (delta : Nat) : BufHeap × MemInst × Bool :=
  let newSize := m.sizeBytes + delta * 65536
  if m.maxPages * 65536 < newSize then (h, m, false)
  else if newSize ≤ m.capBytes then
    (⟨h.bufs.set m.bufId ((h.bufs.getD m.bufId []) ++ List.replicate (delta * 65536) 0)⟩,
     { m with sizeBytes := newSize }, true)
  else
    (⟨h.bufs ++ [(h.bufs.getD m.bufId []) ++ List.replicate (delta * 65536) 0]⟩,
     ⟨h.bufs.length, newSize, newSize, m.maxPages⟩, true)

/-- Modelled from the spec (§3/§4.2): a table reference is null or a
function reference carrying the type-ID of its defining signature. -/
inductive Ref where
  | null
  | func (fidx : Nat) (typeId : Nat)
deriving DecidableEq

/-- A table instance: a fixed-capacity array of references (§3). -/
structure TableInstance where
  refs : List Ref
deriving DecidableEq

/-- Translated from `wasm.TableInitEntry` as used in
`src/unnamed/part_001`: which table, the starting offset, and the function
indexes to place. -/
structure TableInitEntry where
  tableIndex : Nat
  offset : Nat
  functionIndexes : List Nat
deriving DecidableEq

/-- Place consecutive function references from `offset` onward. -/
def applyTableInit (typeIdOf : Nat → Nat) : List Ref → Nat → List Nat → List Ref
  | refs, _, [] => refs
  | refs, off, fidx :: rest =>
    applyTableInit typeIdOf (refs.set off (.func fidx (typeIdOf fidx))) (off + 1) rest

/-- Modelled from the spec (§4.1 `new_module_engine`): initialize table
entries per `table_inits`; `typeIdOf` gives each function's interned
type-ID. -/
def initTables (typeIdOf : Nat → Nat) (tables : List TableInstance)
    (inits : List TableInitEntry) : List TableInstance :=
  inits.foldl
    (fun ts e =>
      match ts[e.tableIndex]? with
      | none => ts
      | some t => ts.set e.tableIndex ⟨applyTableInit typeIdOf t.refs e.offset e.functionIndexes⟩)
    tables

/-- The two error kinds of the indirect-call lookup (§4.2/§7). -/
inductive LookupErr where
  | invalidTableAccess
  | indirectCallTypeMismatch
deriving DecidableEq

/-- Modelled from the spec (§4.2 `lookup_function`): traps
`invalid_table_access` when the slot index is out of range or the slot is
null, `indirect_call_type_mismatch` when the referenced function's type-ID
differs from the expected one, and otherwise returns the function index. -/
def lookupFunction (t : TableInstance) (expectedTypeId slotIndex : Nat) :
    Except LookupErr Nat :=
  match t.refs[slotIndex]? with
  | none => .error .invalidTableAccess
  | some .null => .error .invalidTableAccess
  | some (.func fidx tid) =>
    if tid = expectedTypeId then .ok fidx else .error .indirectCallTypeMismatch

/-- The empty table of size `n` (`make([]wasm.Reference, n)` in the test
sources). -/
def emptyTable (n : Nat) : TableInstance := ⟨List.replicate n .null⟩

/-- Translated from `requireNewModuleEngine_multiTable` in
`src/unnamed/part_001`: tables of sizes 2 and 10, inits placing `func1 = 2`
at table 0 slot 0 and `func2 = 1` at table 1 slot 5; every type-ID is 0. -/
def multiTableTables : List TableInstance :=
  initTables (fun _ => 0) [emptyTable 2, emptyTable 10]
    [⟨0, 0, [2]⟩, ⟨1, 5, [1]⟩]

/-- A typed global cell holding one 64-bit slot
(`wasm.GlobalInstance` as used in `src/unnamed/part_001`). -/
structure GlobalInstance where
  val : Nat
  valType : Nat
deriving DecidableEq

/-- `wasm.GlobalInstanceNullFuncRefValue`, the process-wide null-funcref
sentinel — `int64(-1)`, i.e. `2^64 - 1` as a 64-bit slot (used as
`uint64(nullRefVal)` in `src/unnamed/part_001`). -/
def globalNullFuncRefValue : Nat := 18446744073709551615

/-- Modelled from the spec (§4.2 `initialize_funcref_globals`): for each
global of declared type funcref, a sentinel value is stored as zero and
any other value — a function index — is translated through the engine's
opaque compiled-function pointer map `fnPtr`; other globals are left
untouched. -/
def initFuncrefGlobals (fnPtr : Nat → Nat) (globals : List GlobalInstance) :
    List GlobalInstance :=
  globals.map fun g =>
    if g.valType = ValueTypeFuncref then
      if g.val = globalNullFuncRefValue then ⟨0, g.valType⟩
      else ⟨fnPtr g.val, g.valType⟩
    else g

/-- The five globals of `RunTestEngine_InitializeFuncrefGlobals` in
`src/unnamed/part_001`. -/
def funcrefTestGlobals : List GlobalInstance :=
  [⟨10, ValueTypeI32⟩,
   ⟨globalNullFuncRefValue, ValueTypeFuncref⟩,
   ⟨2, ValueTypeFuncref⟩,
   ⟨1, ValueTypeFuncref⟩,
   ⟨0, ValueTypeFuncref⟩]

/-- Modelled from the spec (§5 shared resources): the per-namespace
instance registry keyed by module name; registering an already-present
name is rejected with `module[<name>] has already been instantiated`. -/
def registerModuleName (ns : List String) (name : String) : Except String (List String) :=
  if name ∈ ns then
    .error ("module[" ++ name ++ "] has already been instantiated")
  else
    .ok (ns ++ [name])

/-- A function signature as the host module builder records it
(`wasm.FunctionType`, parameter and result value-type bytes). -/
structure FunctionType where
  params : List Nat
  results : List Nat
deriving DecidableEq

/-- One host function handed to the builder: its export name, signature,
and a tag standing for the Go callable. -/
structure HostFuncDef where
  exportName : String
  ty : FunctionType
  codeTag : Nat
deriving DecidableEq

/-- The sections of the compiled host module the builder tests inspect. -/
structure HostModule where
  typeSection : List FunctionType
  functionSection : List Nat
  codeSection : List Nat
  exportSection : List (String × Nat)
deriving DecidableEq

/-- Modelled from the spec (§6 builder contract): a later `export(name)`
overwrites any prior function with the same export name. -/
def upsertFn (acc : List HostFuncDef) (d : HostFuncDef) : List HostFuncDef :=
  if acc.any (fun x => x.exportName = d.exportName) then
    acc.map (fun x => if x.exportName = d.exportName then d else x)
  else
    acc ++ [d]

/-- The surviving set of builder entries after overwrites. -/
def survivors (defs : List HostFuncDef) : List HostFuncDef :=
  defs.foldl upsertFn []

/-- Lexicographic comparison of character lists by code point — the byte
order in which Go's `sort.Strings` places ASCII export names. -/
def charListLt : List Char → List Char → Bool
  | [], [] => false
  | [], _ :: _ => true
  | _ :: _, [] => false
  | c :: cs, d :: ds =>
    if c.toNat < d.toNat then true
    else if d.toNat < c.toNat then false
    else charListLt cs ds

/-- Computable strict order on strings. -/
def strLt (a b : String) : Bool := charListLt a.toList b.toList

/-- Name order on builder entries: strictly below or equal by export
name. -/
def leByName (a b : HostFuncDef) : Prop :=
  strLt a.exportName b.exportName = true ∨ a.exportName = b.exportName

instance : DecidableRel leByName := fun a b =>
  inferInstanceAs (Decidable (strLt a.exportName b.exportName = true ∨ a.exportName = b.exportName))

instance : IsTotal HostFuncDef leByName := by
  have key : ∀ xs ys : List Char, charListLt xs ys = true ∨ charListLt ys xs = true ∨ xs = ys := by
    intro xs
    induction xs with
    | nil =>
      intro ys
      cases ys with
      | nil => right; right; rfl
      | cons d ds => left; rfl
    | cons c cs ih =>
      intro ys
      cases ys with
      | nil => right; left; rfl
      | cons d ds =>
        rcases Nat.lt_trichotomy c.toNat d.toNat with h | h | h
        · left; simp [charListLt, h]
        · have hcd : c = d := Char.eq_of_val_eq (UInt32.eq_of_val_eq (Fin.ext h))
          subst hcd
          rcases ih ds with h2 | h2 | h2
          · left; simp [charListLt, h2]
          · right; left; simp [charListLt, h2]
          · right; right; rw [h2]
        · right; left; simp [charListLt, h]
  refine ⟨fun a b => ?_⟩
  rcases key a.exportName.toList b.exportName.toList with h | h | h
  · exact Or.inl (Or.inl h)
  · exact Or.inr (Or.inl h)
  · exact Or.inl (Or.inr (String.toList_inj.mp h))

instance : IsTrans HostFuncDef leByName := by
  have key : ∀ xs ys zs : List Char, charListLt xs ys = true → charListLt ys zs = true →
      charListLt xs zs = true := by
    intro xs
    induction xs with
    | nil =>
      intro ys zs h1 h2
      cases ys with
      | nil => exact absurd h1 (by simp [charListLt])
      | cons d ds =>
        cases zs with
        | nil => exact absurd h2 (by simp [charListLt])
        | cons e es => rfl
    | cons c cs ih =>
      intro ys zs h1 h2
      cases ys with
      | nil => exact absurd h1 (by simp [charListLt])
      | cons d ds =>
        cases zs with
        | nil => exact absurd h2 (by simp [charListLt])
        | cons e es =>
          simp only [charListLt] at h1 h2 ⊢
          split_ifs at h1 h2 ⊢ <;>
            first
              | rfl
              | omega
              | exact ih ds es h1 h2
  refine ⟨fun a b c hab hbc => ?_⟩
  rcases hab with hab | hab <;> rcases hbc with hbc | hbc
  · exact Or.inl (key _ _ _ hab hbc)
  · exact Or.inl (hbc ▸ hab)
  · exact Or.inl (hab ▸ hbc)
  · exact Or.inr (hab.trans hbc)

/-- The name order lifted to strings, for stating sortedness of the
export section. -/
def strLe (a b : String) : Prop := strLt a b = true ∨ a = b

/-- Deduplicate the type list preserving first occurrence (§6: types are
deduplicated and indexed accordingly). -/
def dedupTypes (l : List FunctionType) : List FunctionType :=
  l.foldl (fun acc t => if acc.any (fun x => x = t) then acc else acc ++ [t]) []

/-- The surviving builder entries in export-name order — the order in
which the module sections are emitted (§6). -/
def sortedSurvivors (defs : List HostFuncDef) : List HostFuncDef :=
  List.insertionSort leByName (survivors defs)

/-- Modelled from the spec (§6 host module builder contract): overwrite by
export name, emit exports sorted by name, deduplicate the type section,
and index the function and code sections consistently with the sorted
order. -/
def buildHostModule (defs : List HostFuncDef) : HostModule :=
  let s := sortedSurvivors defs
  let ts := dedupTypes (s.map (fun d => d.ty))
  { typeSection := ts
  , functionSection := s.map (fun d => ts.findIdx (fun x => x = d.ty))
  , codeSection := s.map (fun d => d.codeTag)
  , exportSection := s.enum.map (fun p => (p.2.exportName, p.1)) }

/-- The signature `(i32) → i32` of `uint32_uint32` in
`src/builder_test.go`. -/
def tyI32I32 : FunctionType := ⟨[ValueTypeI32], [ValueTypeI32]⟩

/-- The signature `(i64) → i32` of `uint64_uint32` in
`src/builder_test.go`. -/
def tyI64I32 : FunctionType := ⟨[ValueTypeI64], [ValueTypeI32]⟩

/-! Helper lemmas about the buffer heap shared by the aliasing claims. -/

theorem bufGet_bufSet_ne (h : BufHeap) (b b2 i j v : Nat) (hne : b ≠ b2) :
    bufGet (bufSet h b i v) b2 j = bufGet h b2 j := by
  simp [bufGet, bufSet, List.getD_eq_getElem?_getD, List.getElem?_set_ne hne]

theorem bufGet_bufSet_self (h : BufHeap) (b i v : Nat)
    (hb : b < h.bufs.length) (hi : i < (h.bufs.getD b []).length) :
    bufGet (bufSet h b i v) b i = v := by
  have hi2 : i < (h.bufs[b]?.getD []).length := by
    simpa [List.getD_eq_getElem?_getD] using hi
  simp [bufGet, bufSet, List.getD_eq_getElem?_getD, List.getElem?_set_self hb,
    List.getElem?_set_self hi2]

theorem memWriteBytes_bufGet_ne (m : MemInst) (b2 j : Nat) (hne : m.bufId ≠ b2) :
    ∀ (bytes : List Nat) (h : BufHeap) (off : Nat),
      bufGet (memWriteBytes h m off bytes) b2 j = bufGet h b2 j := by
  intro bytes
  induction bytes with
  | nil => intro h off; rfl
  | cons b rest ih =>
    intro h off
    rw [memWriteBytes, ih]
    unfold memWriteByte
    split
    · exact bufGet_bufSet_ne h m.bufId b2 off j b hne
    · rfl

/-! Helper lemmas about the builder's type deduplication. -/

theorem mem_foldl_dedup (t : FunctionType) :
    ∀ (l acc : List FunctionType), t ∈ acc →
      t ∈ l.foldl (fun acc2 x => if acc2.any (fun y => y = x) then acc2 else acc2 ++ [x]) acc := by
  intro l
  induction l with
  | nil => intro acc h; exact h
  | cons x xs ih =>
    intro acc h
    rw [List.foldl_cons]
    apply ih
    by_cases hx : acc.any (fun y => y = x)
    · simpa [hx] using h
    · simp only [hx, if_neg]
      exact List.mem_append.mpr (Or.inl h)

theorem mem_dedupTypes (t : FunctionType) :
    ∀ l : List FunctionType, t ∈ l → t ∈ dedupTypes l := by
  have main : ∀ (l acc : List FunctionType), t ∈ l →
      t ∈ l.foldl (fun acc2 x => if acc2.any (fun y => y = x) then acc2 else acc2 ++ [x]) acc := by
    intro l
    induction l with
    | nil => intro acc h; cases h
    | cons x xs ih =>
      intro acc h
      rw [List.foldl_cons]
      rcases List.mem_cons.mp h with rfl | hxs
      · apply mem_foldl_dedup
        by_cases hx : acc.any (fun y => y = t)
        · rw [if_pos hx]
          obtain ⟨y, hy, hyt⟩ := List.any_eq_true.mp hx
          exact (of_decide_eq_true hyt) ▸ hy
        · rw [if_neg hx]
          exact List.mem_append.mpr (Or.inr (List.mem_singleton.mpr rfl))
      · exact ih _ hxs
  intro l h
  exact main l [] h

theorem getElem_findIdx_ty (ts : List FunctionType) (t : FunctionType) (h : t ∈ ts) :
    ts[ts.findIdx (fun x => x = t)]? = some t := by
  have hex : ∃ x ∈ ts, (fun x => decide (x = t)) x = true := ⟨t, h, by simp⟩
  have hlt := List.findIdx_lt_length_of_exists hex
  have h1 := List.getElem?_eq_getElem hlt
  have h2 := List.findIdx_of_getElem?_eq_some h1
  rw [h1]
  exact congrArg some (of_decide_eq_true h2)

set_option maxRecDepth 8000 in
/-- Claim C1: calling `importing.call_import->call->div_by.go` with
`0xFFFFFFFF` — which reaches the host `div_by.go` through
`imported.call->div_by.go` — returns the error whose message is exactly
the phrase `host-function panic (recovered by wazero)` followed by the
stack trace in `<module>.<debug-name>(<param-types>) <result-types>` form,
three frames innermost first; the two-level call through
`imported.call->div_by.go` shows the corresponding two frames. -/
theorem host_panic_stack_trace :
    callEngineCall callStore 3 [4294967295] =
      .error "host-function panic (recovered by wazero)\nwasm stack trace:\n\thost.div_by.go(i32) i32\n\timported.call->div_by.go(i32) i32\n\timporting.call_import->call->div_by.go(i32) i32" ∧
    callEngineCall callStore 2 [4294967295] =
      .error "host-function panic (recovered by wazero)\nwasm stack trace:\n\thost.div_by.go(i32) i32\n\timported.call->div_by.go(i32) i32" := by
  constructor <;> decide

/-- Claim C2: for every Call Engine over a function taking N 64-bit
parameter slots and every parameter slice of a different length M, `call`
fails with exactly `expected N params, but passed M`; and for the identity
function `(param i64 i64) (result i64 i64)`, `call([1,2])` succeeds with
`[1,2]` while `call([])` and `call([1,2,3])` produce the two arity
errors. -/
theorem call_arity_check :
    (∀ (store : List FuncInst) (gidx : Nat) (f : FuncInst) (p : List Nat),
       store[gidx]? = some f → p.length ≠ f.paramNumInUint64 →
       callEngineCall store gidx p =
         .error ("expected " ++ Nat.repr f.paramNumInUint64 ++ " params, but passed " ++
           Nat.repr p.length)) ∧
    callEngineCall identityStore 0 [1, 2] = .ok [1, 2] ∧
    callEngineCall identityStore 0 [] = .error "expected 2 params, but passed 0" ∧
    callEngineCall identityStore 0 [1, 2, 3] = .error "expected 2 params, but passed 3" := by
  refine ⟨?_, by decide, by decide, by decide⟩
  intro store gidx f p hget hne
  simp [callEngineCall, hget, hne]

theorem call_arity_check_witness :
    identityStore[0]? = some identityFn ∧
    ([] : List Nat).length ≠ identityFn.paramNumInUint64 ∧
    callEngineCall identityStore 0 [] =
      .error ("expected " ++ Nat.repr identityFn.paramNumInUint64 ++ " params, but passed " ++
        Nat.repr ([] : List Nat).length) :=
  ⟨by decide, by decide,
   call_arity_check.1 identityStore 0 identityFn [] (by decide) (by decide)⟩

/-- Claim C3: `lookup_function` traps `invalid_table_access` whenever the
slot index is out of the table's range or the slot is null, and returns
the stored function index for a slot whose reference carries the expected
type-ID; on the `multiTable` fixture (tables of sizes 2 and 10 initialized
with `table0[0] = 2` and `table1[5] = 1`), slot lookups return 2 and 1 and
the uninitialized `table0[1]` traps `invalid_table_access`. -/
theorem lookup_function_table_access :
    (∀ (t : TableInstance) (expectedTypeId i : Nat),
       t.refs.length ≤ i ∨ t.refs[i]? = some Ref.null →
       lookupFunction t expectedTypeId i = .error .invalidTableAccess) ∧
    (∀ (t : TableInstance) (expectedTypeId i fidx : Nat),
       t.refs[i]? = some (.func fidx expectedTypeId) →
       lookupFunction t expectedTypeId i = .ok fidx) ∧
    lookupFunction (multiTableTables.getD 0 ⟨[]⟩) 0 0 = .ok 2 ∧
    lookupFunction (multiTableTables.getD 1 ⟨[]⟩) 0 5 = .ok 1 ∧
    lookupFunction (multiTableTables.getD 0 ⟨[]⟩) 0 1 = .error .invalidTableAccess := by
  refine ⟨?_, ?_, by decide, by decide, by decide⟩
  · intro t T i hcase
    rcases hcase with hlen | hnull
    · simp [lookupFunction, List.getElem?_eq_none hlen]
    · simp [lookupFunction, hnull]
  · intro t T i fidx href
    simp [lookupFunction, href]

theorem lookup_function_table_access_witness :
    (emptyTable 2).refs.length ≤ 5 ∧
    lookupFunction (emptyTable 2) 0 5 = .error .invalidTableAccess :=
  ⟨by decide, lookup_function_table_access.1 (emptyTable 2) 0 5 (Or.inl (by decide))⟩

/-- Claim C4: two successive successful calls on the same Call Engine
return result slices with distinct backing storage: the second allocation
is a different buffer, and mutating any cell of the first result leaves
every cell of the second unchanged. -/
theorem call_results_distinct_storage :
    ∀ (store : List FuncInst) (h : BufHeap) (g : Nat) (p : List Nat)
      (id1 : Nat) (h1 : BufHeap) (id2 : Nat) (h2 : BufHeap),
      callEngineCallAlloc store h g p = .ok (id1, h1) →
      callEngineCallAlloc store h1 g p = .ok (id2, h2) →
      id1 ≠ id2 ∧
      ∀ i val j, bufGet (bufSet h2 id1 i val) id2 j = bufGet h2 id2 j := by
  intro store h g p id1 h1 id2 h2 hc1 hc2
  cases hres : callEngineCall store g p with
  | error e => simp [callEngineCallAlloc, hres] at hc1
  | ok res =>
    simp only [callEngineCallAlloc, hres, allocBuf, Except.ok.injEq, Prod.mk.injEq] at hc1 hc2
    obtain ⟨hid1, hh1⟩ := hc1
    obtain ⟨hid2, hh2⟩ := hc2
    have hlen : id2 = id1 + 1 := by
      subst hh1
      simp at hid2
      omega
    have hne : id1 ≠ id2 := by omega
    exact ⟨hne, fun i val j => bufGet_bufSet_ne h2 id1 id2 i j val hne⟩

theorem call_results_distinct_storage_witness :
    callEngineCallAlloc identityStore ⟨[]⟩ 0 [1, 2] = .ok (0, ⟨[[1, 2]]⟩) ∧
    (0 : Nat) ≠ 1 ∧
    bufGet (bufSet ⟨[[1, 2], [1, 2]]⟩ 0 0 255) 1 0 = bufGet ⟨[[1, 2], [1, 2]]⟩ 1 0 :=
  ⟨by decide,
   (call_results_distinct_storage identityStore ⟨[]⟩ 0 [1, 2] 0 ⟨[[1, 2]]⟩ 1 ⟨[[1, 2], [1, 2]]⟩
     (by decide) (by decide)).1,
   (call_results_distinct_storage identityStore ⟨[]⟩ 0 [1, 2] 0 ⟨[[1, 2]]⟩ 1 ⟨[[1, 2], [1, 2]]⟩
     (by decide) (by decide)).2 0 255 0⟩

/-- Claim C5: for every in-range `(offset, n)`, `Memory.Read` returns a
view of the instance's backing buffer: a host write through the view is
observed by Wasm loads and by a subsequent read of the same range, a Wasm
store is observed through the view — and after a capacity-changing
`memory.grow` the old view is disconnected: the new memory uses a
different buffer, the view's bytes survive the grow, and subsequent Wasm
writes (such as re-running `memory.init`) leave the view unchanged. -/
theorem memory_read_returns_view :
    ∀ (h : BufHeap) (m : MemInst) (off n : Nat) (v : HostView),
      memWF h m → memRead h m off n = some v →
      v = ⟨m.bufId, off, n⟩ ∧
      (∀ i val, i < n → memByte (viewWrite h v i val) m (off + i) = val) ∧
      (∀ i val, i < n → viewByte (viewWrite h v i val) v i = val) ∧
      (∀ i val, i < n → viewByte (memWriteByte h m (off + i) val) v i = val) ∧
      (∀ (delta : Nat) (h2 : BufHeap) (m2 : MemInst),
         m.capBytes < m.sizeBytes + delta * 65536 →
         m.sizeBytes + delta * 65536 ≤ m.maxPages * 65536 →
         memGrow h m delta = (h2, m2, true) →
         m2.bufId ≠ v.bufId ∧
         (∀ j, viewByte h2 v j = viewByte h v j) ∧
         (∀ (bytes : List Nat) (off2 j : Nat),
            viewByte (memWriteBytes h2 m2 off2 bytes) v j = viewByte h2 v j)) := by
  intro h m off n v hwf hread
  obtain ⟨hblt, hblen⟩ := hwf
  have hrange : off + n ≤ m.sizeBytes := by
    by_contra hcon
    simp [memRead, hcon] at hread
  have hv : v = ⟨m.bufId, off, n⟩ := by
    simp [memRead, hrange] at hread
    exact hread.symm
  subst hv
  refine ⟨rfl, ?_, ?_, ?_, ?_⟩
  · intro i val hi
    have hwr : viewWrite h ⟨m.bufId, off, n⟩ i val = bufSet h m.bufId (off + i) val := by
      simp [viewWrite, hi]
    rw [hwr]
    unfold memByte
    exact bufGet_bufSet_self h m.bufId (off + i) val hblt (by omega)
  · intro i val hi
    have hwr : viewWrite h ⟨m.bufId, off, n⟩ i val = bufSet h m.bufId (off + i) val := by
      simp [viewWrite, hi]
    rw [hwr]
    unfold viewByte
    exact bufGet_bufSet_self h m.bufId (off + i) val hblt (by omega)
  · intro i val hi
    have hwr : memWriteByte h m (off + i) val = bufSet h m.bufId (off + i) val := by
      simp [memWriteByte]
      omega
    rw [hwr]
    unfold viewByte
    exact bufGet_bufSet_self h m.bufId (off + i) val hblt (by omega)
  · intro delta h2 m2 hcap hmax hgrow
    have hmax2 : ¬ (m.maxPages * 65536 < m.sizeBytes + delta * 65536) := by omega
    have hcap2 : ¬ (m.sizeBytes + delta * 65536 ≤ m.capBytes) := by omega
    simp only [memGrow, if_neg hmax2, if_neg hcap2, Prod.mk.injEq] at hgrow
    obtain ⟨hh2, hm2, -⟩ := hgrow
    have hbid : m2.bufId = h.bufs.length := by rw [← hm2]
    have hproj : (⟨m.bufId, off, n⟩ : HostView).bufId = m.bufId := rfl
    refine ⟨?_, ?_, ?_⟩
    · rw [hproj, hbid]
      omega
    · intro j
      unfold viewByte bufGet
      rw [← hh2]
      simp [List.getD_eq_getElem?_getD, List.getElem?_append_left hblt]
    · intro bytes off2 j
      apply memWriteBytes_bufGet_ne
      rw [hproj, hbid]
      omega

theorem memory_read_returns_view_witness :
    memWF ⟨[[5, 6]]⟩ ⟨0, 2, 2, 2⟩ ∧
    memRead ⟨[[5, 6]]⟩ ⟨0, 2, 2, 2⟩ 0 2 = some ⟨0, 0, 2⟩ ∧
    memByte (viewWrite ⟨[[5, 6]]⟩ ⟨0, 0, 2⟩ 1 7) ⟨0, 2, 2, 2⟩ (0 + 1) = 7 :=
  ⟨by decide, by decide,
   (memory_read_returns_view ⟨[[5, 6]]⟩ ⟨0, 2, 2, 2⟩ 0 2 ⟨0, 0, 2⟩ (by decide)
     (by decide)).2.1 1 7 (by decide)⟩

/-- Claim C6: `initialize_funcref_globals` leaves every non-funcref global
unchanged, zeroes every funcref global holding the process-wide
null-funcref sentinel, and replaces every other funcref global's
function-index value with the engine's opaque compiled-function pointer
for that index; on the test fixture the five globals become
`[i32=10, 0, ptr 2, ptr 1, ptr 0]`. -/
theorem init_funcref_globals_spec :
    (∀ (fnPtr : Nat → Nat) (gs : List GlobalInstance) (i : Nat) (g : GlobalInstance),
       gs[i]? = some g →
       ∃ g2, (initFuncrefGlobals fnPtr gs)[i]? = some g2 ∧
         (g.valType ≠ ValueTypeFuncref → g2 = g) ∧
         (g.valType = ValueTypeFuncref → g.val = globalNullFuncRefValue → g2.val = 0) ∧
         (g.valType = ValueTypeFuncref → g.val ≠ globalNullFuncRefValue →
           g2.val = fnPtr g.val)) ∧
    (∀ fnPtr : Nat → Nat,
       initFuncrefGlobals fnPtr funcrefTestGlobals =
         [⟨10, ValueTypeI32⟩, ⟨0, ValueTypeFuncref⟩, ⟨fnPtr 2, ValueTypeFuncref⟩,
          ⟨fnPtr 1, ValueTypeFuncref⟩, ⟨fnPtr 0, ValueTypeFuncref⟩]) := by
  constructor
  · intro fnPtr gs i g hget
    refine ⟨if g.valType = ValueTypeFuncref then
        (if g.val = globalNullFuncRefValue then ⟨0, g.valType⟩ else ⟨fnPtr g.val, g.valType⟩)
      else g, ?_, ?_, ?_, ?_⟩
    · simp [initFuncrefGlobals, List.getElem?_map, hget]
    · intro hne
      simp [hne]
    · intro hty hnull
      simp [hty, hnull]
    · intro hty hnull
      simp [hty, hnull]
  · intro fnPtr
    simp [initFuncrefGlobals, funcrefTestGlobals, ValueTypeFuncref, ValueTypeI32,
      globalNullFuncRefValue]

theorem init_funcref_globals_spec_witness :
    funcrefTestGlobals[1]? = some ⟨globalNullFuncRefValue, ValueTypeFuncref⟩ ∧
    ((initFuncrefGlobals (fun v => 1000 + v) funcrefTestGlobals)[1]?).map GlobalInstance.val =
      some 0 := by
  refine ⟨by decide, ?_⟩
  obtain ⟨g2, hg2, _, hnull, _⟩ :=
    init_funcref_globals_spec.1 (fun v => 1000 + v) funcrefTestGlobals 1
      ⟨globalNullFuncRefValue, ValueTypeFuncref⟩ (by decide)
  rw [hg2]
  simp [hnull rfl rfl]

/-- Claim C7: once an instantiation under a name has succeeded in a
namespace, a second instantiation under the same name fails with exactly
`module[<name>] has already been instantiated`. -/
theorem duplicate_instantiation_rejected :
    ∀ (ns : List String) (name : String) (ns2 : List String),
      registerModuleName ns name = .ok ns2 →
      registerModuleName ns2 name =
        .error ("module[" ++ name ++ "] has already been instantiated") := by
  intro ns name ns2 hok
  by_cases hmem : name ∈ ns
  · simp [registerModuleName, hmem] at hok
  · simp only [registerModuleName, if_neg hmem, Except.ok.injEq] at hok
    subst hok
    have : name ∈ ns ++ [name] := List.mem_append.mpr (Or.inr (List.mem_singleton.mpr rfl))
    simp [registerModuleName, this]

theorem duplicate_instantiation_rejected_witness :
    registerModuleName [] "env" = .ok ["env"] ∧
    registerModuleName ["env"] "env" =
      .error ("module[" ++ "env" ++ "] has already been instantiated") :=
  ⟨by decide, duplicate_instantiation_rejected [] "env" ["env"] (by decide)⟩

set_option maxRecDepth 8000 in
/-- Claim C8: the compiled host module's export section is sorted by
export name regardless of insertion order, export `i` carries index `i`,
and the function, type, and code sections are indexed consistently with
the sorted order; adding export `2` before export `1` still yields exports
`1` at index 0 and `2` at index 1 with matching type and code entries. -/
theorem host_module_builder_sections :
    (∀ defs : List HostFuncDef,
       List.Pairwise strLe ((buildHostModule defs).exportSection.map Prod.fst)) ∧
    (∀ defs : List HostFuncDef,
       (buildHostModule defs).exportSection.map Prod.snd =
         List.range (sortedSurvivors defs).length) ∧
    (∀ (defs : List HostFuncDef) (i : Nat) (d : HostFuncDef),
       (sortedSurvivors defs)[i]? = some d →
       (buildHostModule defs).functionSection[i]? =
           some ((buildHostModule defs).typeSection.findIdx (fun x => x = d.ty)) ∧
       (buildHostModule defs).typeSection[
           (buildHostModule defs).typeSection.findIdx (fun x => x = d.ty)]? = some d.ty ∧
       (buildHostModule defs).codeSection[i]? = some d.codeTag ∧
       (buildHostModule defs).exportSection[i]? = some (d.exportName, i)) ∧
    buildHostModule [⟨"2", tyI64I32, 2⟩, ⟨"1", tyI32I32, 1⟩] =
      ⟨[tyI32I32, tyI64I32], [0, 1], [1, 2], [("1", 0), ("2", 1)]⟩ ∧
    buildHostModule [⟨"2", tyI64I32, 2⟩, ⟨"1", tyI32I32, 1⟩] =
      buildHostModule [⟨"1", tyI32I32, 1⟩, ⟨"2", tyI64I32, 2⟩] := by
  refine ⟨?_, ?_, ?_, by decide, by decide⟩
  · intro defs
    have hsorted : List.Sorted leByName (sortedSurvivors defs) :=
      List.sorted_insertionSort leByName (survivors defs)
    have hmap : (buildHostModule defs).exportSection.map Prod.fst =
        (sortedSurvivors defs).map (fun d => d.exportName) := by
      show ((sortedSurvivors defs).enum.map (fun p => (p.2.exportName, p.1))).map Prod.fst = _
      rw [List.map_map]
      have hcomp : (Prod.fst ∘ fun p : Nat × HostFuncDef => (p.2.exportName, p.1)) =
          (fun d : HostFuncDef => d.exportName) ∘ Prod.snd := rfl
      rw [hcomp, ← List.map_map, List.enum_map_snd]
    rw [hmap]
    exact List.Pairwise.map _ (fun a b hab => hab) hsorted
  · intro defs
    show ((sortedSurvivors defs).enum.map (fun p => (p.2.exportName, p.1))).map Prod.snd = _
    rw [List.map_map]
    have hcomp : (Prod.snd ∘ fun p : Nat × HostFuncDef => (p.2.exportName, p.1)) =
        Prod.fst := rfl
    rw [hcomp, List.enum_map_fst]
  · intro defs i d hget
    have hmem : d ∈ sortedSurvivors defs := List.getElem?_mem hget
    have htymem : d.ty ∈ dedupTypes ((sortedSurvivors defs).map (fun x => x.ty)) :=
      mem_dedupTypes d.ty _ (List.mem_map_of_mem _ hmem)
    refine ⟨?_, ?_, ?_, ?_⟩
    · show ((sortedSurvivors defs).map _)[i]? = _
      rw [List.getElem?_map, hget]
      rfl
    · exact getElem_findIdx_ty _ _ htymem
    · show ((sortedSurvivors defs).map _)[i]? = _
      rw [List.getElem?_map, hget]
      rfl
    · show ((sortedSurvivors defs).enum.map _)[i]? = _
      rw [List.getElem?_map, List.getElem?_enum, hget]
      rfl

theorem host_module_builder_sections_witness :
    (sortedSurvivors [⟨"1", tyI32I32, 1⟩])[0]? = some ⟨"1", tyI32I32, 1⟩ ∧
    (buildHostModule [⟨"1", tyI32I32, 1⟩]).codeSection[0]? = some 1 :=
  ⟨by decide,
   (host_module_builder_sections.2.2.1 [⟨"1", tyI32I32, 1⟩] 0 ⟨"1", tyI32I32, 1⟩
     (by decide)).2.2.1⟩

/-- Claim C9: the boundary value encoders implement the stated slot layout
and invert the decoders: `EncodeI32` zero-extends the two's-complement low
32 bits (high 32 bits zero), `EncodeF32` places the float32 bits in the
low 32 bits of the slot and `DecodeF32` restores them bit-identically,
`DecodeF64` inverts `EncodeF64`, and `DecodeExternref` inverts
`EncodeExternref`.  Floats are modelled by their IEEE 754 bit patterns,
over which the Go conversions are bitwise. -/
theorem encoders_invert_decoders :
    (∀ x : Int, -2147483648 ≤ x → x < 2147483648 →
       EncodeI32 x < 4294967296 ∧
       (0 ≤ x → (EncodeI32 x : Int) = x) ∧
       (x < 0 → (EncodeI32 x : Int) = x + 4294967296)) ∧
    (∀ b : Nat, b < 4294967296 →
       DecodeF32 (EncodeF32 b) = b ∧ EncodeF32 b % 4294967296 = b ∧
       EncodeF32 b < 18446744073709551616) ∧
    (∀ b : Nat, b < 18446744073709551616 → DecodeF64 (EncodeF64 b) = b) ∧
    (∀ p : Nat, p < 18446744073709551616 → DecodeExternref (EncodeExternref p) = p) := by
  refine ⟨?_, ?_, ?_, ?_⟩
  · intro x h1 h2
    unfold EncodeI32
    refine ⟨?_, ?_, ?_⟩ <;> omega
  · intro b hb
    unfold DecodeF32 EncodeF32
    omega
  · intro b hb
    unfold DecodeF64 EncodeF64
    omega
  · intro p hp
    unfold DecodeExternref EncodeExternref
    omega

theorem encoders_invert_decoders_witness :
    ((-5 : Int) < 0 ∧ (EncodeI32 (-5) : Int) = -5 + 4294967296) ∧
    (3 < 4294967296 ∧ DecodeF32 (EncodeF32 3) = 3) :=
  ⟨⟨by norm_num, ((encoders_invert_decoders.1 (-5) (by norm_num) (by norm_num)).2.2 (by norm_num))⟩,
   ⟨by norm_num, (encoders_invert_decoders.2.1 3 (by norm_num)).1⟩⟩

set_option maxRecDepth 8000 in
/-- Claim C10: after a `call` returns an error — an arity mismatch before
execution or a trap raised during execution (wasm divide by zero, host
panic) — the same Call Engine remains usable: a subsequent call with valid
parameters succeeds and returns the correct result (`[1] ↦ [1]`). -/
theorem call_engine_usable_after_error :
    callEngineCall callStore 1 [] = .error "expected 1 params, but passed 0" ∧
    callEngineCall callStore 1 [1] = .ok [1] ∧
    callEngineCall callStore 1 [0] =
      .error "wasm error: integer divide by zero\nwasm stack trace:\n\timported.div_by.wasm(i32) i32" ∧
    callEngineCall callStore 3 [4294967295] =
      .error "host-function panic (recovered by wazero)\nwasm stack trace:\n\thost.div_by.go(i32) i32\n\timported.call->div_by.go(i32) i32\n\timporting.call_import->call->div_by.go(i32) i32" ∧
    callEngineCall callStore 3 [1] = .ok [1] := by
  refine ⟨by decide, by decide, by decide, by decide, by decide⟩

end Wazero
